import Mathlib

/-!
Verification development for `luno-csrf-node` (`src/lib/CSRF.js`).

The JavaScript source is shallowly embedded: JS objects holding
form-name → credential-list mappings become association lists
(`List (String × List Credential)`), timestamps are `Int` milliseconds,
the callback-based persistence layer is made explicit by returning the
list of session-store requests a call performs, and code paths that
throw a `TypeError` at runtime return `Except.error`.

The external collaborators (the luno session store reached through
`luno.post` / `luno.patch`, and the `scmp` constant-time string
comparison dependency) are not part of this repository; they are
modelled from the spec where noted.
-/

namespace LunoCSRF

/-- A JS form-submission value: `undefined`, a string, or a number
(enough to express missing and non-string fields). -/
inductive JsVal where
  | undefined
  | str (s : String)
  | num (n : Int)
deriving Repr, DecidableEq

/-- JS `String(·)` coercion for the values of `JsVal`. -/
def jsToString : JsVal → String
  | .undefined => "undefined"
  | .str s => s
  | .num n => toString n

/-- Modelled from the spec: the `scmp` dependency performs a
constant-time comparison of its two arguments after coercing them to
strings; on equal-length strings the xor-accumulation is zero exactly
when the strings are equal, so extensionally it is string equality of
the coercions.  The second argument is always a stored token (already
a string). -/
def scmp (a : JsVal) (b : String) : Bool :=
  jsToString a == b

/-- A CSRF credential as built by `generateCredentials` in
`src/lib/CSRF.js` (lines 70-81): optional random `name`, random
`token`, creation timestamp. -/
structure Credential where
  name : Option String
  token : String
  created : Int
deriving Repr, DecidableEq

/-- The per-session CSRF details object: a JS object mapping form
names to credential arrays, embedded as an association list in key
insertion order. -/
abbrev CsrfDetails := List (String × List Credential)

/-- JS object property read `d[k]` (first entry with the key). -/
def getKey {α : Type} (d : List (String × α)) (k : String) : Option α :=
  (d.find? (fun p => p.1 == k)).map (fun p => p.2)

/-- JS object property write `d[k] = v`: overwrites the entry if the
key is present, otherwise appends it at the end. -/
def setKey {α : Type} : List (String × α) → String → α → List (String × α)
  | [], k, v => [(k, v)]
  | p :: rest, k, v =>
    if p.1 == k then (k, v) :: rest else p :: setKey rest k v

/-- The `session.details` object: we only model its `csrf` field,
which may be absent. -/
structure SessionDetails where
  csrf : Option CsrfDetails
deriving Repr, DecidableEq

/-- A luno session model: `id` (absent for a not-yet-persisted
session) and the `details` object, which itself may be absent on a
malformed session (the case `CSRF.prototype._expire` trips over). -/
structure Session where
  id : Option String
  details : Option SessionDetails
deriving Repr, DecidableEq

/-- The session-cookie configuration sub-object (constructor defaults,
`src/lib/CSRF.js` lines 17-20). -/
structure CookieConfig where
  maxAge : Int := 1209600000
  httpOnly : Bool := true
deriving Repr, DecidableEq

/-- The merged configuration object built by the `CSRF` constructor
(`src/lib/CSRF.js` lines 8-21), with its default values. -/
structure Config where
  tokenLength : Int := 30
  useName : Bool := true
  name : String := "csrf-"
  nameLength : Int := 12
  maxTokens : Int := 20
  expiry : Int := 86400000
  expireAfterUse : Bool := true
  sessionCookieName : String := "session"
  sessionCookieConfig : CookieConfig := {}
deriving Repr, DecidableEq

/-- A caller-supplied configuration: every field optional, as in the
JS constructor's `config` argument. -/
structure PartialConfig where
  tokenLength : Option Int := none
  useName : Option Bool := none
  name : Option String := none
  nameLength : Option Int := none
  maxTokens : Option Int := none
  expiry : Option Int := none
  expireAfterUse : Option Bool := none
  sessionCookieName : Option String := none
  sessionCookieConfig : Option CookieConfig := none
deriving Repr, DecidableEq

/-- The `CSRF` constructor (`src/lib/CSRF.js` lines 5-26): starts from
the defaults and overwrites each supplied field (`for (var i in
config) self.config[i] = config[i]`).  It performs no validation of
the supplied values and cannot fail. -/
def construct (pc : PartialConfig) : Config :=
  { tokenLength := pc.tokenLength.getD 30
    useName := pc.useName.getD true
    name := pc.name.getD "csrf-"
    nameLength := pc.nameLength.getD 12
    maxTokens := pc.maxTokens.getD 20
    expiry := pc.expiry.getD 86400000
    expireAfterUse := pc.expireAfterUse.getD true
    sessionCookieName := pc.sessionCookieName.getD "session"
    sessionCookieConfig := pc.sessionCookieConfig.getD {} }

/-- Modelled from the spec: Node's `crypto.randomBytes` rejects an
invalid (negative) size argument with a `RangeError` when it is
called, i.e. at first use of the configuration, not at construction
time. -/
def randomBytesCheck (n : Int) : Except String Unit :=
  if n < 0 then .error "RangeError: invalid randomBytes size" else .ok ()

/-- `CSRF.prototype.generateCredentials` (`src/lib/CSRF.js` lines
70-81).  The two `crypto.randomBytes(..).toString('base64')` results
are inputs (`rname`, `rtoken`): randomness is supplied by the
environment.  The name is attached only when `useName` is set;
`created` is `Date.now()`. -/
def generateCredentials (cfg : Config) (rname rtoken : String) (now : Int) :
    Credential :=
  { name := if cfg.useName then some rname else none
    token := rtoken
    created := now }

/-- `generateCredentials` with the `crypto.randomBytes` size checks of
its two calls made explicit (see `randomBytesCheck`); used to show
where an invalid configured length actually fails. -/
def generateCredentialsChecked (cfg : Config) (rname rtoken : String)
    (now : Int) : Except String Credential := do
  if cfg.useName then randomBytesCheck cfg.nameLength
  randomBytesCheck cfg.tokenLength
  pure (generateCredentials cfg rname rtoken now)

/-- The credential-retention test of `CSRF.prototype._expire`
(`src/lib/CSRF.js` line 100): an entry is spliced out when
`created < Date.now() - expiry`; the survivors, in order. -/
def pruneList (cfg : Config) (now : Int) (l : List Credential) :
    List Credential :=
  l.filter (fun c => !(decide (c.created < now - cfg.expiry)))

/-- The body of `CSRF.prototype._expire` (`src/lib/CSRF.js` lines
96-105) on a csrf details object: every form's list is pruned in
place, and every form whose list actually changed is recorded in the
`details` accumulator (second component). -/
def expireCsrf (cfg : Config) (now : Int) (d : CsrfDetails) :
    CsrfDetails × CsrfDetails :=
  (d.map (fun p => (p.1, pruneList cfg now p.2)),
   (d.filter (fun p => decide (pruneList cfg now p.2 ≠ p.2))).map
     (fun p => (p.1, pruneList cfg now p.2)))

/-- `CSRF.prototype._expire` (`src/lib/CSRF.js` lines 90-106): returns
the session after its in-place splices together with the changed-forms
accumulator.  A missing session or a missing `csrf` field is
tolerated, but a session without a `details` object makes
`session.details.csrf` throw a `TypeError`. -/
def expireSession (cfg : Config) (now : Int) :
    Option Session → Except String (Option Session × CsrfDetails)
  | none => .ok (none, [])
  | some s =>
    match s.details with
    | none => .error "TypeError: Cannot read property 'csrf' of undefined"
    | some sd =>
      match sd.csrf with
      | none => .ok (some s, [])
      | some d =>
        let pr := expireCsrf cfg now d
        .ok (some { s with details := some ⟨some pr.1⟩ }, pr.2)

/-- A request made to the luno session store: `luno.post('/sessions',
..)` or `luno.patch('/sessions/' + id, ..)`, each carrying the csrf
details written. -/
inductive LunoCall where
  | post (details : CsrfDetails)
  | patch (id : String) (details : CsrfDetails)
deriving Repr, DecidableEq

/-- Modelled from the spec: the session record the luno store returns
from `POST /sessions` — a fresh identity whose details carry the csrf
mapping that was sent. -/
def freshSession (fid : String) (details : CsrfDetails) : Session :=
  ⟨some fid, some ⟨some details⟩⟩

/-- JS truthiness of the `session.id` read in `save`: absent or empty
ids are falsy. -/
def idFalsy : Option String → Bool
  | none => true
  | some s => s == ""

/-- `CSRF.prototype.save` (`src/lib/CSRF.js` lines 115-137).  With no
session or a falsy id it posts a new anonymous session and hands the
created record to the callback with `created = true`; otherwise it
patches the session by id and hands back the same session reference
with `created = false`.  `fid` is the id the store assigns on create;
the returned `LunoCall` records the single store request made. -/
def savePure (fid : String) (session : Option Session)
    (details : CsrfDetails) : Session × Bool × LunoCall :=
  match session with
  | none => (freshSession fid details, true, .post details)
  | some s =>
    if idFalsy s.id then (freshSession fid details, true, .post details)
    else (s, false, .patch (s.id.getD "") details)

/-- The `forms` argument of `generate`: a single form name or an
array (`Array.isArray(forms) ? forms : [forms]`). -/
inductive FormsArg where
  | one (f : String)
  | many (fs : List String)
deriving Repr, DecidableEq

/-- Normalization of the `forms` argument to an array. -/
def FormsArg.toList : FormsArg → List String
  | .one f => [f]
  | .many fs => fs

/-- The csrf object of an (optional) session, when present. -/
def csrfOf (s : Option Session) : Option CsrfDetails :=
  (s.bind Session.details).bind SessionDetails.csrf

/-- Replace a session's csrf object, when both exist (the shape of the
in-place array mutations `_expire` and `generate` perform). -/
def withCsrf : Option Session → Option CsrfDetails → Option Session
  | some s, some d => some { s with details := some ⟨some d⟩ }
  | s, _ => s

/-- The raw `session && session.details.csrf && session.details.csrf[f]
|| []` read of `generate` (`src/lib/CSRF.js` line 50), before any
pruning. -/
def rawFormList (s : Option Session) (f : String) : List Credential :=
  ((csrfOf s).bind (fun d => getKey d f)).getD []

/-- One pass of the `generate` form loop (`src/lib/CSRF.js` lines
48-57), threading the in-memory session csrf object `sc` (mutated only
when the form's array already lived on the session, mirroring the JS
aliasing of `arr`), the `resp` object of new credentials, and the
`details` object to be saved.  `i` indexes into the stream of random
values. -/
def genLoop (cfg : Config) (now : Int) (rands : Nat → String × String) :
    List String → Nat → Option CsrfDetails → List (String × Credential) →
    CsrfDetails →
    Option CsrfDetails × List (String × Credential) × CsrfDetails
  | [], _, sc, resp, det => (sc, resp, det)
  | f :: rest, i, sc, resp, det =>
    let arrOpt := sc.bind (fun d => getKey d f)
    let arr0 := arrOpt.getD []
    let arr1 := if (arr0.length : Int) ≥ cfg.maxTokens then arr0.tail else arr0
    let c := generateCredentials cfg (rands i).1 (rands i).2 now
    let arr2 := arr1 ++ [c]
    let sc1 := match arrOpt, sc with
      | some _, some d => some (setKey d f arr2)
      | _, _ => sc
    genLoop cfg now rands rest (i + 1) sc1 (setKey resp f c) (setKey det f arr2)

/-- The result handed to `generate`'s callback, together with the
in-memory session after the call's mutations and the store requests
made. -/
structure GenResult where
  resp : List (String × Credential)
  details : CsrfDetails
  sessionAfter : Option Session
  cbSession : Session
  created : Bool
  calls : List LunoCall
deriving Repr, DecidableEq

/-- `CSRF.prototype.generate` (`src/lib/CSRF.js` lines 36-63): expire,
then for each requested form evict-if-full and append one fresh
credential, then one `save`.  `rands` supplies the
`crypto.randomBytes` outputs of iteration `i`, `fid` the id the store
would assign on create. -/
def generate (cfg : Config) (now : Int) (fid : String)
    (session : Option Session) (forms : FormsArg)
    (rands : Nat → String × String) : Except String GenResult :=
  match expireSession cfg now session with
  | .error e => .error e
  | .ok (sess1, changed) =>
    let res := genLoop cfg now rands forms.toList 0 (csrfOf sess1) [] changed
    let sessAfter := withCsrf sess1 res.1
    let saved := savePure fid sessAfter res.2.2
    .ok ⟨res.2.1, res.2.2, sessAfter, saved.1, saved.2.1, [saved.2.2]⟩

/-- The expected field name of a credential (`src/lib/CSRF.js` lines
234-235 and 269-270): `config.name`, suffixed with the credential's
`name` when `useName` is set and the name is truthy. -/
def expectedName (cfg : Config) (c : Credential) : String :=
  match c.name with
  | some n => if cfg.useName && !(n == "") then cfg.name ++ n else cfg.name
  | none => cfg.name

/-- `CSRF.prototype.inputHTML` (`src/lib/CSRF.js` lines 267-272). -/
def inputHTML (cfg : Config) (c : Credential) : String :=
  "<input type=\"hidden\" name=\"" ++ expectedName cfg c ++
    "\" value=\"" ++ c.token ++ "\">"

/-- Whether a submitted body value matches a credential: the
`scmp(body[name], c.token)` test of `src/lib/CSRF.js` line 236, with
`name` the credential's expected field name. -/
def matchCred (cfg : Config) (b : String → JsVal) (c : Credential) : Bool :=
  scmp (b (expectedName cfg c)) c.token

/-- The scan of `validate`'s loop (`src/lib/CSRF.js` lines 231-255):
`none` when no credential matches the body, otherwise the list with
the first matching credential spliced out. -/
def scanRemove (cfg : Config) (b : String → JsVal) :
    List Credential → Option (List Credential)
  | [] => none
  | c :: rest =>
    if matchCred cfg b c then some rest
    else (scanRemove cfg b rest).map (fun l => c :: l)

/-- The outcome of a `validate` call: the boolean handed to the
callback, the in-memory session after the call's mutations, and the
session-store requests made. -/
structure ValidateResult where
  matched : Bool
  sessionAfter : Option Session
  calls : List LunoCall
deriving Repr, DecidableEq

/-- `CSRF.prototype.validate` (`src/lib/CSRF.js` lines 214-259).  The
body is `none` when the request body object itself is absent — in
that case the `body[name]` read of the first loop iteration throws a
`TypeError`; a present body is a total lookup returning `JsVal.undefined`
for missing fields.  A matched credential is removed and saved only
under `expireAfterUse`. -/
def validate (cfg : Config) (now : Int) (fid : String)
    (session : Option Session) (form : String)
    (body : Option (String → JsVal)) : Except String ValidateResult :=
  match session with
  | none => .ok ⟨false, none, []⟩
  | some s =>
    match s.details with
    | none => .ok ⟨false, some s, []⟩
    | some sd =>
      match sd.csrf with
      | none => .ok ⟨false, some s, []⟩
      | some d =>
        match getKey d form with
        | none => .ok ⟨false, some s, []⟩
        | some l =>
          match body with
          | none =>
            if ((getKey (expireCsrf cfg now d).2 form).getD l).isEmpty then
              .ok ⟨false,
                some { s with details := some ⟨some (expireCsrf cfg now d).1⟩ },
                []⟩
            else .error "TypeError: Cannot read property of undefined"
          | some b =>
            match scanRemove cfg b
                ((getKey (expireCsrf cfg now d).2 form).getD l) with
            | none =>
              .ok ⟨false,
                some { s with details := some ⟨some (expireCsrf cfg now d).1⟩ },
                []⟩
            | some rest =>
              if !cfg.expireAfterUse then
                .ok ⟨true,
                  some { s with details := some ⟨some (expireCsrf cfg now d).1⟩ },
                  []⟩
              else
                .ok ⟨true,
                  some ⟨s.id, some ⟨some (setKey (expireCsrf cfg now d).1 form rest)⟩⟩,
                  [(savePure fid
                      (some ⟨s.id, some ⟨some (setKey (expireCsrf cfg now d).1 form rest)⟩⟩)
                      (setKey (expireCsrf cfg now d).2 form rest)).2.2]⟩

/-- The body a well-behaved client submits for credential `c`: exactly
the field rendered by `inputHTML`, nothing else. -/
def matchingBody (cfg : Config) (c : Credential) : String → JsVal :=
  fun n => if n == expectedName cfg c then .str c.token else .undefined

/-- All credentials stored under entries of the session's csrf object
whose key is `form` (on a real JS object there is at most one such
entry). -/
def allFormCreds (session : Option Session) (form : String) :
    List Credential :=
  match csrfOf session with
  | none => []
  | some d => (d.filter (fun p => p.1 == form)).flatMap Prod.snd

/-! ### Helper lemmas -/

theorem pruneList_idem (cfg : Config) (now : Int) (l : List Credential) :
    pruneList cfg now (pruneList cfg now l) = pruneList cfg now l := by
  induction l with
  | nil => rfl
  | cons c rest ih =>
    by_cases h : c.created < now - cfg.expiry <;>
      simp [pruneList, List.filter_cons, h]

theorem pruneList_append (cfg : Config) (now : Int)
    (a b : List Credential) :
    pruneList cfg now (a ++ b) = pruneList cfg now a ++ pruneList cfg now b :=
  List.filter_append a b

theorem mem_of_mem_pruneList {cfg : Config} {now : Int}
    {l : List Credential} {x : Credential} (h : x ∈ pruneList cfg now l) :
    x ∈ l := (List.mem_filter.1 h).1

theorem pruneList_singleton_keep {cfg : Config} {now : Int} {c : Credential}
    (h : ¬ c.created < now - cfg.expiry) : pruneList cfg now [c] = [c] := by
  simp [pruneList, h]

theorem getKey_cons {α : Type} (a : String × α) (d : List (String × α))
    (k : String) :
    getKey (a :: d) k = if a.1 == k then some a.2 else getKey d k := by
  by_cases h : a.1 == k <;> simp [getKey, List.find?, h]

theorem getKey_map {α β : Type} (g : α → β) (d : List (String × α))
    (k : String) :
    getKey (d.map (fun p => (p.1, g p.2))) k = (getKey d k).map g := by
  induction d with
  | nil => rfl
  | cons p rest ih =>
    by_cases h : p.1 == k <;> simp [getKey_cons, h, ih]

theorem getKey_setKey_self {α : Type} (d : List (String × α)) (k : String)
    (v : α) : getKey (setKey d k v) k = some v := by
  induction d with
  | nil => simp [setKey, getKey_cons]
  | cons p rest ih =>
    by_cases h : p.1 == k <;> simp [setKey, getKey_cons, h, ih]

theorem keys_setKey_of_some {α : Type} {d : List (String × α)} {k : String}
    {w : α} (v : α) (h : getKey d k = some w) :
    (setKey d k v).map Prod.fst = d.map Prod.fst := by
  induction d with
  | nil => simp [getKey] at h
  | cons p rest ih =>
    by_cases hp : p.1 == k
    · simp [setKey, hp, beq_iff_eq.1 hp]
    · rw [getKey_cons, if_neg hp] at h
      simp [setKey, hp, ih h]

theorem getKey_expireFst (cfg : Config) (now : Int) (d : CsrfDetails)
    (k : String) :
    getKey ((expireCsrf cfg now d).1) k
      = (getKey d k).map (pruneList cfg now) :=
  getKey_map (pruneList cfg now) d k

theorem keys_expireCsrf (cfg : Config) (now : Int) (d : CsrfDetails) :
    ((expireCsrf cfg now d).1).map Prod.fst = d.map Prod.fst := by
  simp [expireCsrf, List.map_map, Function.comp]

theorem getKey_expireChanged_none {cfg : Config} {now : Int}
    {d : CsrfDetails} {k : String} (h : ∀ p ∈ d, (p.1 == k) = false) :
    getKey ((expireCsrf cfg now d).2) k = none := by
  have hf : List.find? (fun p => p.1 == k) ((expireCsrf cfg now d).2)
      = none := by
    apply List.find?_eq_none.2
    intro p hp
    simp only [expireCsrf, List.mem_map, List.mem_filter] at hp
    obtain ⟨q, ⟨hq, _⟩, rfl⟩ := hp
    simp [h q hq]
  simp [getKey, hf]

theorem expireChanged_cons (cfg : Config) (now : Int)
    (p : String × List Credential) (rest : CsrfDetails) :
    (expireCsrf cfg now (p :: rest)).2 =
      if pruneList cfg now p.2 = p.2 then (expireCsrf cfg now rest).2
      else (p.1, pruneList cfg now p.2) :: (expireCsrf cfg now rest).2 := by
  by_cases h : pruneList cfg now p.2 = p.2 <;>
    simp [expireCsrf, List.filter_cons, h]

theorem getKey_changed_getD {cfg : Config} {now : Int} {d : CsrfDetails}
    {k : String} {l : List Credential}
    (hnd : (d.map Prod.fst).Nodup) (h : getKey d k = some l) :
    (getKey ((expireCsrf cfg now d).2) k).getD l = pruneList cfg now l := by
  induction d with
  | nil => simp [getKey, List.find?] at h
  | cons p rest ih =>
    rw [List.map_cons, List.nodup_cons] at hnd
    rw [expireChanged_cons]
    by_cases hp : p.1 == k
    · have hl : p.2 = l := by
        have := h
        rw [getKey_cons, if_pos hp] at this
        exact Option.some.inj this
      subst hl
      by_cases hch : pruneList cfg now p.2 = p.2
      · have hnone : getKey ((expireCsrf cfg now rest).2) k = none := by
          apply getKey_expireChanged_none
          intro q hq
          cases hb : (q.1 == k) with
          | false => rfl
          | true =>
            exfalso
            apply hnd.1
            rw [beq_iff_eq.1 hp, ← beq_iff_eq.1 hb]
            exact List.mem_map_of_mem Prod.fst hq
        rw [if_pos hch, hnone, Option.getD_none, hch]
      · rw [if_neg hch, getKey_cons, if_pos hp, Option.getD_some]
    · have h2 : getKey rest k = some l := by
        have := h
        rwa [getKey_cons, if_neg hp] at this
      by_cases hch : pruneList cfg now p.2 = p.2
      · rw [if_pos hch]
        exact ih hnd.2 h2
      · rw [if_neg hch, getKey_cons, if_neg hp]
        exact ih hnd.2 h2

theorem scanRemove_eq_none {cfg : Config} {b : String → JsVal}
    {L : List Credential} (h : ∀ x ∈ L, matchCred cfg b x = false) :
    scanRemove cfg b L = none := by
  induction L with
  | nil => rfl
  | cons c rest ih =>
    rw [scanRemove, if_neg (by simp [h c (by simp)])]
    rw [ih (fun x hx => h x (List.mem_cons_of_mem c hx))]
    rfl

theorem scanRemove_append_last {cfg : Config} {b : String → JsVal}
    {pre : List Credential} {c : Credential}
    (hpre : ∀ x ∈ pre, matchCred cfg b x = false)
    (hc : matchCred cfg b c = true) :
    scanRemove cfg b (pre ++ [c]) = some pre := by
  induction pre with
  | nil => simp [scanRemove, hc]
  | cons p rest ih =>
    rw [List.cons_append, scanRemove,
      if_neg (by simp [hpre p (by simp)]),
      ih (fun x hx => hpre x (List.mem_cons_of_mem p hx))]
    rfl

theorem matchCred_matchingBody (cfg : Config) (c : Credential) :
    matchCred cfg (matchingBody cfg c) c = true := by
  simp [matchCred, matchingBody, scmp, jsToString]

theorem getKey_mem_of_eq_some {α : Type} {d : List (String × α)}
    {k : String} {v : α} (h : getKey d k = some v) :
    ∃ p, p ∈ d ∧ p.1 = k ∧ p.2 = v := by
  induction d with
  | nil => simp [getKey] at h
  | cons p rest ih =>
    by_cases hp : p.1 == k
    · rw [getKey_cons, if_pos hp] at h
      exact ⟨p, by simp, beq_iff_eq.1 hp, Option.some.inj h⟩
    · rw [getKey_cons, if_neg hp] at h
      obtain ⟨q, hq, hk, hv⟩ := ih h
      exact ⟨q, List.mem_cons_of_mem p hq, hk, hv⟩

theorem changed_getKey_source {cfg : Config} {now : Int} {d : CsrfDetails}
    {k : String} {v : List Credential}
    (h : getKey ((expireCsrf cfg now d).2) k = some v) :
    ∃ p, p ∈ d ∧ p.1 = k ∧ v = pruneList cfg now p.2 := by
  obtain ⟨q, hq, hk, hv⟩ := getKey_mem_of_eq_some h
  simp only [expireCsrf, List.mem_map, List.mem_filter] at hq
  obtain ⟨p, ⟨hp, _⟩, rfl⟩ := hq
  exact ⟨p, hp, hk, hv.symm⟩

theorem mem_allFormCreds {d : CsrfDetails} {id : Option String}
    {form : String} {p : String × List Credential} (hp : p ∈ d)
    (hk : p.1 = form) {x : Credential} (hx : x ∈ p.2) :
    x ∈ allFormCreds (some ⟨id, some ⟨some d⟩⟩) form := by
  have hall : allFormCreds (some ⟨id, some ⟨some d⟩⟩) form
      = (d.filter (fun p => p.1 == form)).flatMap Prod.snd := rfl
  rw [hall, List.mem_flatMap]
  exact ⟨p, List.mem_filter.2 ⟨hp, by simp [hk]⟩, hx⟩

theorem validate_reduce (cfg : Config) (now : Int) (fid : String)
    (id : Option String) (d : CsrfDetails) (form : String)
    (l : List Credential) (b : String → JsVal)
    (hl : getKey d form = some l) :
    validate cfg now fid (some ⟨id, some ⟨some d⟩⟩) form (some b) =
      match scanRemove cfg b
          ((getKey ((expireCsrf cfg now d).2) form).getD l) with
      | none =>
        .ok ⟨false, some ⟨id, some ⟨some (expireCsrf cfg now d).1⟩⟩, []⟩
      | some rest =>
        if !cfg.expireAfterUse then
          .ok ⟨true, some ⟨id, some ⟨some (expireCsrf cfg now d).1⟩⟩, []⟩
        else
          .ok ⟨true,
            some ⟨id, some ⟨some (setKey (expireCsrf cfg now d).1 form rest)⟩⟩,
            [(savePure fid
                (some ⟨id, some ⟨some (setKey (expireCsrf cfg now d).1 form rest)⟩⟩)
                (setKey ((expireCsrf cfg now d).2) form rest)).2.2]⟩ := by
  simp only [validate, hl]

/-! ### The claims -/

/-- Claim C4: pruning a CSRF details mapping a second time immediately
after a first application removes no further credentials (the pruned
mapping is unchanged) and reports no changed forms. -/
theorem expire_pruning_idempotent (cfg : Config) (now : Int)
    (d : CsrfDetails) :
    expireCsrf cfg now (expireCsrf cfg now d).1 =
      ((expireCsrf cfg now d).1, []) := by
  have h1 : ((expireCsrf cfg now d).1).map
      (fun p => (p.1, pruneList cfg now p.2)) = (expireCsrf cfg now d).1 := by
    simp only [expireCsrf, List.map_map]
    exact List.map_congr_left (fun p _ => by
      simp [Function.comp, pruneList_idem])
  have h2 : ((expireCsrf cfg now d).1).filter
      (fun p => decide (pruneList cfg now p.2 ≠ p.2)) = [] := by
    rw [List.filter_eq_nil_iff]
    intro p hp
    simp only [expireCsrf, List.mem_map] at hp
    obtain ⟨q, _, rfl⟩ := hp
    simp [pruneList_idem]
  have hu : expireCsrf cfg now (expireCsrf cfg now d).1 =
      (((expireCsrf cfg now d).1).map (fun p => (p.1, pruneList cfg now p.2)),
       (((expireCsrf cfg now d).1).filter
          (fun p => decide (pruneList cfg now p.2 ≠ p.2))).map
         (fun p => (p.1, pruneList cfg now p.2))) := rfl
  rw [hu, h2, h1]
  rfl

/-- Claim C5: at validation time `now`, a credential created at
`now - expiry - 1` is removed by pruning and fails validation, while
one created at `now - expiry + 1` survives pruning and still
validates: the cutoff comparison `created < now - expiry` is strict at
the boundary. -/
theorem expiry_boundary_strict (cfg : Config) (now : Int)
    (fid1 fid2 sid f t : String) :
    pruneList cfg now [⟨none, t, now - cfg.expiry - 1⟩] = [] ∧
    pruneList cfg now [⟨none, t, now - cfg.expiry + 1⟩] =
      [⟨none, t, now - cfg.expiry + 1⟩] ∧
    (∃ r, validate cfg now fid1
        (some ⟨some sid, some ⟨some [(f, [⟨none, t, now - cfg.expiry - 1⟩])]⟩⟩)
        f (some (matchingBody cfg ⟨none, t, now - cfg.expiry - 1⟩)) = .ok r ∧
      r.matched = false) ∧
    (∃ r, validate cfg now fid2
        (some ⟨some sid, some ⟨some [(f, [⟨none, t, now - cfg.expiry + 1⟩])]⟩⟩)
        f (some (matchingBody cfg ⟨none, t, now - cfg.expiry + 1⟩)) = .ok r ∧
      r.matched = true) := by
  have hold : pruneList cfg now [⟨none, t, now - cfg.expiry - 1⟩] = [] := by
    simp [pruneList, List.filter_cons,
      show now - cfg.expiry - 1 < now - cfg.expiry by omega]
  have hnew : pruneList cfg now [⟨none, t, now - cfg.expiry + 1⟩] =
      [⟨none, t, now - cfg.expiry + 1⟩] :=
    pruneList_singleton_keep
      (show ¬ now - cfg.expiry + 1 < now - cfg.expiry by omega)
  refine ⟨hold, hnew, ?_, ?_⟩
  · rw [validate_reduce cfg now fid1 (some sid)
      [(f, [⟨none, t, now - cfg.expiry - 1⟩])] f
      [⟨none, t, now - cfg.expiry - 1⟩]
      (matchingBody cfg ⟨none, t, now - cfg.expiry - 1⟩)
      (by simp [getKey_cons])]
    have hch : (expireCsrf cfg now [(f, [⟨none, t, now - cfg.expiry - 1⟩])]).2
        = [(f, [])] := by
      simp [expireCsrf, List.filter_cons, hold]
    rw [hch,
      show getKey [(f, ([] : List Credential))] f = some [] by
        simp [getKey_cons],
      Option.getD_some]
    exact ⟨_, rfl, rfl⟩
  · rw [validate_reduce cfg now fid2 (some sid)
      [(f, [⟨none, t, now - cfg.expiry + 1⟩])] f
      [⟨none, t, now - cfg.expiry + 1⟩]
      (matchingBody cfg ⟨none, t, now - cfg.expiry + 1⟩)
      (by simp [getKey_cons])]
    have hch : (expireCsrf cfg now [(f, [⟨none, t, now - cfg.expiry + 1⟩])]).2
        = [] := by
      simp [expireCsrf, List.filter_cons, hnew]
    rw [hch, show getKey ([] : CsrfDetails) f = none from rfl,
      Option.getD_none,
      show scanRemove cfg (matchingBody cfg ⟨none, t, now - cfg.expiry + 1⟩)
          [⟨none, t, now - cfg.expiry + 1⟩] = some [] from by
        simp [scanRemove, matchCred_matchingBody]]
    by_cases he : cfg.expireAfterUse <;> simp [he]

/-- Claim C7: `save` posts a brand-new session record carrying the
given CSRF details and reports `created = true` when the session is
absent or its id is falsy; otherwise it patches the session by its id
and returns the same session reference with `created = false`. -/
theorem save_create_or_update (fid : String) (details : CsrfDetails)
    (sd : Option SessionDetails) (i : String) :
    savePure fid none details =
      (freshSession fid details, true, .post details) ∧
    savePure fid (some ⟨none, sd⟩) details =
      (freshSession fid details, true, .post details) ∧
    savePure fid (some ⟨some i, sd⟩) details =
      (if i = "" then (freshSession fid details, true, .post details)
       else (⟨some i, sd⟩, false, .patch i details)) := by
  refine ⟨rfl, rfl, ?_⟩
  by_cases h : i = "" <;> simp [savePure, idFalsy, h]

/-- Claim C9 (counterexample): the constructor accepts a non-positive
`tokenLength` and produces a full configuration object — no error is
raised at construction. -/
theorem construct_accepts_invalid :
    construct { tokenLength := some (-5) } =
      { tokenLength := -5, useName := true, name := "csrf-",
        nameLength := 12, maxTokens := 20, expiry := 86400000,
        expireAfterUse := true, sessionCookieName := "session",
        sessionCookieConfig := {} } ∧
    (construct { tokenLength := some (-5) }).tokenLength ≤ 0 := by
  exact ⟨rfl, by norm_num [construct]⟩

/-- Claim C9 (amended): the constructor performs no validation — any
supplied value, including a non-positive length, is merged over the
defaults verbatim — and an invalid `tokenLength` only surfaces as an
error at the first `generateCredentials` call, via the
`crypto.randomBytes` size check. -/
theorem construct_defers_errors (t : Int) (rname rtoken : String)
    (now : Int) :
    (construct { tokenLength := some t }).tokenLength = t ∧
    (construct { maxTokens := some t }).maxTokens = t ∧
    generateCredentialsChecked (construct { tokenLength := some (-5) })
        rname rtoken now = .error "RangeError: invalid randomBytes size" := by
  refine ⟨rfl, rfl, ?_⟩
  rfl

/-- Claim C10: `generate` on a non-null session that has no `details`
object throws a `TypeError` from the `session.details.csrf` read in
`_expire`, while a session whose `details` exists but lacks the `csrf`
field is tolerated as an empty mapping. -/
theorem generate_missing_details_throws (cfg : Config) (now : Int)
    (fid : String) (id : Option String) (forms : FormsArg)
    (rands : Nat → String × String) :
    generate cfg now fid (some ⟨id, none⟩) forms rands =
      .error "TypeError: Cannot read property 'csrf' of undefined" ∧
    ∃ r, generate cfg now fid (some ⟨id, some ⟨none⟩⟩) forms rands = .ok r :=
  ⟨rfl, ⟨_, rfl⟩⟩

/-- Claim C6: every non-throwing invocation of `generate` makes
exactly one persistence (save) call, regardless of how many form names
are requested in the `forms` argument. -/
theorem generate_single_save (cfg : Config) (now : Int) (fid : String)
    (session : Option Session) (forms : FormsArg)
    (rands : Nat → String × String) (r : GenResult)
    (h : generate cfg now fid session forms rands = .ok r) :
    r.calls.length = 1 := by
  unfold generate at h
  cases he : expireSession cfg now session with
  | error e => rw [he] at h; simp at h
  | ok pr =>
    rw [he] at h
    obtain ⟨s1, ch⟩ := pr
    injection h with h
    rw [← h]
    rfl

/-- Witness for C6: a `generate` call requesting two forms makes
exactly one store call. -/
theorem generate_single_save_witness :
    ∃ r, generate {} 0 "sid" none (.many ["a", "b"])
        (fun _ => ("n", "t")) = .ok r ∧ r.calls.length = 1 :=
  ⟨_, rfl, generate_single_save {} 0 "sid" none (.many ["a", "b"])
    (fun _ => ("n", "t")) _ rfl⟩

/-- Claim C3: whenever `validate` returns a not-matched outcome — the
session absent, no CSRF data for the form, or no stored credential
matching the body — it makes no persistence call, even when expiry
pruning changed the in-memory token lists during the call. -/
theorem validate_no_match_no_persist (cfg : Config) (now : Int)
    (fid : String) (session : Option Session) (form : String)
    (body : Option (String → JsVal)) (r : ValidateResult)
    (h : validate cfg now fid session form body = .ok r)
    (hm : r.matched = false) : r.calls = [] := by
  cases session with
  | none => exact (Except.ok.inj h) ▸ rfl
  | some s =>
    obtain ⟨id, sdet⟩ := s
    cases sdet with
    | none => exact (Except.ok.inj h) ▸ rfl
    | some sd =>
      obtain ⟨csrf⟩ := sd
      cases csrf with
      | none => exact (Except.ok.inj h) ▸ rfl
      | some d =>
        cases hgk : getKey d form with
        | none =>
          simp only [validate, hgk] at h
          exact (Except.ok.inj h) ▸ rfl
        | some l =>
          cases body with
          | none =>
            simp only [validate, hgk] at h
            split at h
            · exact (Except.ok.inj h) ▸ rfl
            · exact absurd h (by simp)
          | some b =>
            rw [validate_reduce cfg now fid id d form l b hgk] at h
            by_cases he : cfg.expireAfterUse
            · simp only [he, Bool.not_true, Bool.false_eq_true,
                if_false] at h
              cases hsc : scanRemove cfg b
                  ((getKey (expireCsrf cfg now d).2 form).getD l) with
              | none =>
                rw [hsc] at h
                exact (Except.ok.inj h) ▸ rfl
              | some rest =>
                rw [hsc] at h
                replace h := Except.ok.inj h
                rw [← h] at hm
                simp at hm
            · simp only [eq_false_of_ne_true he, Bool.not_false,
                if_true] at h
              cases hsc : scanRemove cfg b
                  ((getKey (expireCsrf cfg now d).2 form).getD l) with
              | none =>
                rw [hsc] at h
                exact (Except.ok.inj h) ▸ rfl
              | some rest =>
                rw [hsc] at h
                replace h := Except.ok.inj h
                rw [← h] at hm
                simp at hm

/-- Witness for C3: a `validate` call with no session returns
not-matched and an empty store-call list. -/
theorem validate_no_match_no_persist_witness :
    ∃ r, validate {} 0 "fid" none "f" none = .ok r ∧ r.calls = [] :=
  ⟨⟨false, none, []⟩, rfl,
    validate_no_match_no_persist {} 0 "fid" none "f" none
      ⟨false, none, []⟩ rfl rfl⟩

/-- Claim C8 (counterexample): with an entirely absent body and an
unexpired stored credential for the form, `validate` throws a
`TypeError` from the `body[name]` read instead of returning a
not-matched outcome. -/
theorem validate_absent_body_throws :
    validate {} 1000 "sid"
        (some ⟨some "s", some ⟨some [("f", [⟨none, "tok", 900⟩])]⟩⟩) "f"
        none
      = .error "TypeError: Cannot read property of undefined" := by
  rfl

/-- Claim C8 (amended): when the submitted body object is present —
whatever its fields hold, including missing fields and non-string
values, as long as no stored credential for the form matches it —
`validate` returns a not-matched outcome and never throws; only an
entirely absent body with a surviving stored credential throws. -/
theorem validate_present_body_total (cfg : Config) (now : Int)
    (fid : String) (session : Option Session) (form : String)
    (b : String → JsVal)
    (hno : ∀ c ∈ allFormCreds session form, matchCred cfg b c = false) :
    ∃ r, validate cfg now fid session form (some b) = .ok r ∧
      r.matched = false := by
  cases session with
  | none => exact ⟨⟨false, none, []⟩, rfl, rfl⟩
  | some s =>
    obtain ⟨id, sdet⟩ := s
    cases sdet with
    | none => exact ⟨_, rfl, rfl⟩
    | some sd =>
      obtain ⟨csrf⟩ := sd
      cases csrf with
      | none => exact ⟨_, rfl, rfl⟩
      | some d =>
        cases hgk : getKey d form with
        | none =>
          refine ⟨⟨false, some ⟨id, some ⟨some d⟩⟩, []⟩, ?_, rfl⟩
          simp only [validate, hgk]
        | some l =>
          rw [validate_reduce cfg now fid id d form l b hgk]
          have hscan : scanRemove cfg b
              ((getKey ((expireCsrf cfg now d).2) form).getD l) = none := by
            apply scanRemove_eq_none
            intro x hx
            cases hc : getKey ((expireCsrf cfg now d).2) form with
            | none =>
              rw [hc, Option.getD_none] at hx
              obtain ⟨p, hp, hk, hv⟩ := getKey_mem_of_eq_some hgk
              exact hno x (mem_allFormCreds hp hk (hv ▸ hx))
            | some v =>
              rw [hc, Option.getD_some] at hx
              obtain ⟨p, hp, hk, hv⟩ := changed_getKey_source hc
              subst hv
              exact hno x (mem_allFormCreds hp hk (mem_of_mem_pruneList hx))
          rw [hscan]
          exact ⟨_, rfl, rfl⟩

/-- Claim C2 (counterexample): with `maxTokens = 1` and a session
already holding two unexpired credentials for the form, `generate`
evicts only one entry and stores a list of length 2, violating
`min(previousLength + 1, maxTokens) = 1`. -/
theorem generate_overfull_counterexample :
    (generate { maxTokens := 1 } 0 "fid"
        (some ⟨some "sid", some ⟨some
          [("login", [⟨none, "a", 0⟩, ⟨none, "b", 0⟩])]⟩⟩)
        (.one "login") (fun _ => ("n", "t"))).map
      (fun g => getKey g.details "login") =
      .ok (some [⟨none, "b", 0⟩, ⟨some "n", "t", 0⟩]) ∧
    (pruneList { maxTokens := 1 } 0
      (rawFormList (some ⟨some "sid", some ⟨some
        [("login", [⟨none, "a", 0⟩, ⟨none, "b", 0⟩])]⟩⟩) "login")).length
      = 2 ∧
    ¬ ((2 : Int) = min ((2 : Int) + 1)
        (({ maxTokens := 1 } : Config).maxTokens)) := by
  refine ⟨rfl, rfl, by decide⟩

/-- Claim C2 (amended): provided the form's pruned previous list is no
longer than `maxTokens` and `maxTokens ≥ 1` — the invariant `generate`
itself maintains — the stored list after `generate` is the pruned
previous list, with its oldest entry dropped when full, and the fresh
credential appended; hence its length is
`min(previousLength + 1, maxTokens)`.  In particular, with
`maxTokens = 2`, generating for the same form three times sequentially
leaves exactly the 2nd and 3rd credentials, in order. -/
theorem generate_list_bound (cfg : Config) (now : Int) (fid : String)
    (s : Option Session) (f : String) (rands : Nat → String × String)
    (r : GenResult)
    (hmax : 1 ≤ cfg.maxTokens)
    (hlen : ((pruneList cfg now (rawFormList s f)).length : Int)
      ≤ cfg.maxTokens)
    (hgen : generate cfg now fid s (.one f) rands = .ok r) :
    getKey r.details f = some
        ((if ((pruneList cfg now (rawFormList s f)).length : Int)
              ≥ cfg.maxTokens
          then (pruneList cfg now (rawFormList s f)).tail
          else pruneList cfg now (rawFormList s f)) ++
         [generateCredentials cfg (rands 0).1 (rands 0).2 now]) ∧
    (((getKey r.details f).getD []).length : Int)
        = min (((pruneList cfg now (rawFormList s f)).length : Int) + 1)
            cfg.maxTokens ∧
    (do
      let g1 ← generate { tokenLength := 16, maxTokens := 2 } 10 "s1" none
        (.one "login") (fun _ => ("n1", "t1"))
      let g2 ← generate { tokenLength := 16, maxTokens := 2 } 11 "s2"
        (some g1.cbSession) (.one "login") (fun _ => ("n2", "t2"))
      let g3 ← generate { tokenLength := 16, maxTokens := 2 } 12 "s3"
        (some g2.cbSession) (.one "login") (fun _ => ("n3", "t3"))
      pure (getKey g3.details "login"))
      = Except.ok (some [⟨some "n2", "t2", 11⟩, ⟨some "n3", "t3", 12⟩]) := by
  have hdet : getKey r.details f = some
      ((if ((pruneList cfg now (rawFormList s f)).length : Int)
            ≥ cfg.maxTokens
        then (pruneList cfg now (rawFormList s f)).tail
        else pruneList cfg now (rawFormList s f)) ++
       [generateCredentials cfg (rands 0).1 (rands 0).2 now]) := by
    cases s with
    | none =>
      simp only [generate, expireSession, FormsArg.toList, genLoop, csrfOf,
        Option.none_bind', Option.getD_none, List.tail_nil, ite_self,
        List.length_nil] at hgen
      replace hgen := Except.ok.inj hgen
      rw [← hgen]
      show getKey (setKey [] f
        ([] ++ [generateCredentials cfg (rands 0).1 (rands 0).2 now])) f = _
      rw [getKey_setKey_self]
      have hP : pruneList cfg now (rawFormList none f) = [] := rfl
      rw [hP, List.tail_nil, ite_self]
    | some s0 =>
      obtain ⟨id, sdet⟩ := s0
      cases sdet with
      | none =>
        simp only [generate, expireSession] at hgen
        exact absurd hgen (by simp)
      | some sd =>
        obtain ⟨csrf⟩ := sd
        cases csrf with
        | none =>
          simp only [generate, expireSession, FormsArg.toList, genLoop,
            csrfOf, Option.none_bind', Option.some_bind', Option.getD_none,
            List.tail_nil, ite_self, List.length_nil] at hgen
          replace hgen := Except.ok.inj hgen
          rw [← hgen]
          show getKey (setKey [] f
            ([] ++ [generateCredentials cfg (rands 0).1 (rands 0).2 now])) f
            = _
          rw [getKey_setKey_self]
          have hP : pruneList cfg now
              (rawFormList (some ⟨id, some ⟨none⟩⟩) f) = [] := rfl
          rw [hP, List.tail_nil, ite_self]
        | some d =>
          cases hgk : getKey d f with
          | none =>
            simp only [generate, expireSession, FormsArg.toList, genLoop,
              csrfOf, Option.none_bind', Option.some_bind', Option.getD_none,
              getKey_expireFst, hgk, Option.map_none', List.tail_nil,
              ite_self, List.length_nil] at hgen
            replace hgen := Except.ok.inj hgen
            rw [← hgen]
            show getKey (setKey ((expireCsrf cfg now d).2) f
              ([] ++ [generateCredentials cfg (rands 0).1 (rands 0).2 now])) f
              = _
            rw [getKey_setKey_self]
            have hP : pruneList cfg now
                (rawFormList (some ⟨id, some ⟨some d⟩⟩) f) = [] := by
              simp [rawFormList, csrfOf, hgk, pruneList]
            rw [hP, List.tail_nil, ite_self]
          | some L =>
            simp only [generate, expireSession, FormsArg.toList, genLoop,
              csrfOf, Option.none_bind', Option.some_bind', Option.getD_none,
              getKey_expireFst, hgk, Option.map_some', Option.getD_some,
              List.length_nil] at hgen
            replace hgen := Except.ok.inj hgen
            rw [← hgen]
            show getKey (setKey ((expireCsrf cfg now d).2) f
              ((if ((pruneList cfg now L).length : Int) ≥ cfg.maxTokens
                then (pruneList cfg now L).tail else pruneList cfg now L) ++
               [generateCredentials cfg (rands 0).1 (rands 0).2 now])) f = _
            rw [getKey_setKey_self]
            have hraw : rawFormList (some ⟨id, some ⟨some d⟩⟩) f = L := by
              simp [rawFormList, csrfOf, hgk]
            rw [hraw]
  refine ⟨hdet, ?_, rfl⟩
  rw [hdet]
  simp only [Option.getD_some, List.length_append, List.length_singleton]
  rcases le_or_lt cfg.maxTokens
    ((pruneList cfg now (rawFormList s f)).length : Int) with hge | hlt
  · rw [if_pos hge, List.length_tail,
      min_eq_right (by omega : cfg.maxTokens
        ≤ ((pruneList cfg now (rawFormList s f)).length : Int) + 1)]
    omega
  · rw [if_neg (not_le.2 hlt),
      min_eq_left (by omega :
        ((pruneList cfg now (rawFormList s f)).length : Int) + 1
          ≤ cfg.maxTokens)]
    omega

/-- Witness for the amended C8: a present body carrying a non-string
value under every field yields not-matched without an error. -/
theorem validate_present_body_total_witness :
    ∃ r, validate {} 1000 "sid"
        (some ⟨some "s", some ⟨some [("g", [⟨none, "tok2", 900⟩])]⟩⟩) "g"
        (some (fun _ => .num 5)) = .ok r ∧ r.matched = false :=
  validate_present_body_total {} 1000 "sid"
    (some ⟨some "s", some ⟨some [("g", [⟨none, "tok2", 900⟩])]⟩⟩) "g"
    (fun _ => .num 5) (by decide)

/-- Witness for the amended C2: generating for an anonymous session
stores a single-credential list for the form. -/
theorem generate_list_bound_witness :
    ∃ r, generate {} 5 "fid" none (.one "login")
        (fun _ => ("nm", "tk")) = .ok r ∧
      getKey r.details "login" = some [⟨some "nm", "tk", 5⟩] :=
  ⟨_, rfl, by
    have h := generate_list_bound {} 5 "fid" none "login"
      (fun _ => ("nm", "tk")) _ (by decide) (by decide) rfl
    exact h.1.trans (by decide)⟩

/-- Claim C1: a credential produced by `generate` for form `f` and
submitted before expiry under its expected field name, against the
session carrying the persisted details, matches on the first
`validate`; an immediately repeated identical submission against the
resulting session is not-matched when `expireAfterUse` is set and
matches again when it is not.  The collision-freedom hypothesis `hno`
(no other stored credential matches the submitted body) reflects the
CSPRNG uniqueness of tokens. -/
theorem roundtrip_single_use (cfg : Config) (now0 now : Int)
    (fid fid1 fid2 fid3 : String) (s : Option Session) (f : String)
    (rands : Nat → String × String) (r : GenResult)
    (lPre : List Credential)
    (_hgen : generate cfg now0 fid s (.one f) rands = .ok r)
    (hform : getKey r.details f
      = some (lPre ++ [generateCredentials cfg (rands 0).1 (rands 0).2 now0]))
    (hnodup : (r.details.map Prod.fst).Nodup)
    (hfresh : ¬ (generateCredentials cfg (rands 0).1 (rands 0).2 now0).created
      < now - cfg.expiry)
    (hno : ∀ c' ∈ lPre, matchCred cfg
      (matchingBody cfg (generateCredentials cfg (rands 0).1 (rands 0).2 now0))
      c' = false) :
    ∃ r1, validate cfg now fid2 (some ⟨some fid1, some ⟨some r.details⟩⟩) f
        (some (matchingBody cfg
          (generateCredentials cfg (rands 0).1 (rands 0).2 now0)))
        = .ok r1 ∧ r1.matched = true ∧
      ∃ r2, validate cfg now fid3 r1.sessionAfter f
          (some (matchingBody cfg
            (generateCredentials cfg (rands 0).1 (rands 0).2 now0)))
          = .ok r2 ∧ r2.matched = (!cfg.expireAfterUse) := by
  set c : Credential :=
    generateCredentials cfg (rands 0).1 (rands 0).2 now0 with hc
  set b : String → JsVal := matchingBody cfg c with hb
  set D : CsrfDetails := r.details with hD
  have hPL : pruneList cfg now (lPre ++ [c])
      = pruneList cfg now lPre ++ [c] := by
    rw [pruneList_append, pruneList_singleton_keep hfresh]
  have hcs : (getKey ((expireCsrf cfg now D).2) f).getD (lPre ++ [c])
      = pruneList cfg now lPre ++ [c] :=
    (getKey_changed_getD hnodup hform).trans hPL
  have hscan : scanRemove cfg b (pruneList cfg now lPre ++ [c])
      = some (pruneList cfg now lPre) :=
    scanRemove_append_last
      (fun x hx => hno x (mem_of_mem_pruneList hx))
      (matchCred_matchingBody cfg c)
  have hXf : getKey ((expireCsrf cfg now D).1) f
      = some (pruneList cfg now (lPre ++ [c])) := by
    rw [getKey_expireFst, hform, Option.map_some']
  rw [validate_reduce cfg now fid2 (some fid1) D f (lPre ++ [c]) b hform,
    hcs, hscan]
  by_cases he : cfg.expireAfterUse
  · simp only [he, Bool.not_true, Bool.false_eq_true, if_false]
    refine ⟨_, rfl, rfl, ?_⟩
    have hl2 : getKey
        (setKey (expireCsrf cfg now D).1 f (pruneList cfg now lPre)) f
        = some (pruneList cfg now lPre) := getKey_setKey_self _ _ _
    have hnodup2 : ((setKey (expireCsrf cfg now D).1 f
        (pruneList cfg now lPre)).map Prod.fst).Nodup := by
      rw [keys_setKey_of_some _ hXf, keys_expireCsrf]
      exact hnodup
    have hcs2 : (getKey ((expireCsrf cfg now
          (setKey (expireCsrf cfg now D).1 f (pruneList cfg now lPre))).2)
          f).getD (pruneList cfg now lPre)
        = pruneList cfg now lPre :=
      (getKey_changed_getD hnodup2 hl2).trans (pruneList_idem cfg now lPre)
    have hscan2 : scanRemove cfg b (pruneList cfg now lPre) = none :=
      scanRemove_eq_none (fun x hx => hno x (mem_of_mem_pruneList hx))
    rw [validate_reduce cfg now fid3 (some fid1)
        (setKey (expireCsrf cfg now D).1 f (pruneList cfg now lPre)) f
        (pruneList cfg now lPre) b hl2,
      hcs2, hscan2]
    exact ⟨_, rfl, rfl⟩
  · simp only [eq_false_of_ne_true he, Bool.not_false, if_true]
    refine ⟨_, rfl, rfl, ?_⟩
    have hnodup2 : (((expireCsrf cfg now D).1).map Prod.fst).Nodup := by
      rw [keys_expireCsrf]
      exact hnodup
    have hcs2 : (getKey ((expireCsrf cfg now ((expireCsrf cfg now D).1)).2)
          f).getD (pruneList cfg now (lPre ++ [c]))
        = pruneList cfg now lPre ++ [c] :=
      (getKey_changed_getD hnodup2 hXf).trans
        ((pruneList_idem cfg now (lPre ++ [c])).trans hPL)
    rw [validate_reduce cfg now fid3 (some fid1)
        ((expireCsrf cfg now D).1) f (pruneList cfg now (lPre ++ [c])) b hXf,
      hcs2, hscan]
    simp only [eq_false_of_ne_true he, Bool.not_false, if_true]
    exact ⟨_, rfl, rfl⟩

/-- Witness for C1: a concrete anonymous-session round trip with the
default configuration. -/
theorem roundtrip_single_use_witness :
    ∃ r1, validate {} 1 "v1"
        (some ⟨some "s1", some ⟨some [("login", [⟨some "rn", "rt", 0⟩])]⟩⟩)
        "login" (some (matchingBody {} ⟨some "rn", "rt", 0⟩)) = .ok r1 ∧
      r1.matched = true ∧
      ∃ r2, validate {} 1 "v2" r1.sessionAfter "login"
          (some (matchingBody {} ⟨some "rn", "rt", 0⟩)) = .ok r2 ∧
        r2.matched = (!({} : Config).expireAfterUse) :=
  roundtrip_single_use {} 0 1 "g" "s1" "v1" "v2" none "login"
    (fun _ => ("rn", "rt")) _ [] rfl (by decide) (by decide) (by decide)
    (by simp)

end LunoCSRF